import Mathlib

/-!
Verification of the quantitative portfolio-optimization engine of this
repository (notebook `portfolio_optimizer.ipynb`) against its specification.

Two shallow embeddings are used, both translated from the source:

* a float-value model `F` (finite rationals plus NaN and signed infinities,
  with IEEE-style propagation) for the parts of the pipeline whose handling
  of non-finite entries is at stake (`np.nanmean`, `np.cov`, the covariance
  fix-up for a single asset, the `np.log(stocks/stocks.shift(1))` pipeline);

* an exact-rational model over `ℚ` for the computations on finite data
  (weight normalization, portfolio metrics, frontier sweep, the
  closest-allocation solve).  Real-valued square roots and the external
  SLSQP solver (`scipy.optimize.minimize`) are abstracted as explicit
  function parameters, so every definition stays executable.
-/

set_option autoImplicit false

namespace PortfolioOpt

/-- IEEE-style floating-point value: a finite rational, NaN, or a signed
infinity.  Models the numpy float64 values flowing through the estimator. -/
inductive F where
  | num (q : ℚ)
  | nan
  | pinf
  | ninf
deriving DecidableEq, Repr

/-- True exactly on NaN. -/
def F.isNan : F → Bool
  | F.nan => true
  | _ => false

/-- True exactly on finite values. -/
def F.isFinite : F → Bool
  | F.num _ => true
  | _ => false

/-- IEEE negation. -/
def F.neg : F → F
  | F.num a => F.num (-a)
  | F.nan => F.nan
  | F.pinf => F.ninf
  | F.ninf => F.pinf

/-- IEEE addition: NaN propagates, opposite infinities give NaN. -/
def F.add : F → F → F
  | F.num a, F.num b => F.num (a + b)
  | F.nan, _ => F.nan
  | _, F.nan => F.nan
  | F.pinf, F.ninf => F.nan
  | F.ninf, F.pinf => F.nan
  | F.pinf, _ => F.pinf
  | _, F.pinf => F.pinf
  | F.ninf, _ => F.ninf
  | _, F.ninf => F.ninf

/-- IEEE subtraction. -/
def F.sub (a b : F) : F := F.add a (F.neg b)

/-- IEEE multiplication: NaN propagates, infinity times zero gives NaN. -/
def F.mul : F → F → F
  | F.num a, F.num b => F.num (a * b)
  | F.nan, _ => F.nan
  | _, F.nan => F.nan
  | F.pinf, F.pinf => F.pinf
  | F.pinf, F.ninf => F.ninf
  | F.ninf, F.pinf => F.ninf
  | F.ninf, F.ninf => F.pinf
  | F.pinf, F.num b => if b = 0 then F.nan else if 0 < b then F.pinf else F.ninf
  | F.num a, F.pinf => if a = 0 then F.nan else if 0 < a then F.pinf else F.ninf
  | F.ninf, F.num b => if b = 0 then F.nan else if 0 < b then F.ninf else F.pinf
  | F.num a, F.ninf => if a = 0 then F.nan else if 0 < a then F.ninf else F.pinf

/-- IEEE division (numpy semantics: x/0 is a signed infinity for x ≠ 0 and
NaN for 0/0; a finite value divided by an infinity is 0). -/
def F.div : F → F → F
  | F.nan, _ => F.nan
  | _, F.nan => F.nan
  | F.num a, F.num b =>
      if b = 0 then (if a = 0 then F.nan else if 0 < a then F.pinf else F.ninf)
      else F.num (a / b)
  | F.num _, F.pinf => F.num 0
  | F.num _, F.ninf => F.num 0
  | F.pinf, F.num b => if 0 ≤ b then F.pinf else F.ninf
  | F.ninf, F.num b => if 0 ≤ b then F.ninf else F.pinf
  | F.pinf, _ => F.nan
  | F.ninf, _ => F.nan

/-- Sum of a list of float values (numpy reduction, zero-initialized). -/
def F.sum (l : List F) : F := l.foldl F.add (F.num 0)

/-- Column `j` of a row-major float matrix (numpy indexing on a rectangular
array; the NaN default is never hit on shape-correct input). -/
def columnF (j : ℕ) (rows : List (List F)) : List F :=
  rows.map (fun r => r.getD j F.nan)

/-- Embedding of `np.nanmean` on one column: the arithmetic mean of the
non-NaN entries.  An all-NaN column gives 0/0 = NaN, as numpy does.
Infinities are NOT excluded: only NaN is filtered. -/
def np_nanmean (xs : List F) : F :=
  let v := xs.filter (fun x => ! x.isNan)
  F.div (F.sum v) (F.num (v.length : ℚ))

/-- Embedding of `np.mean` on one column (the plain mean used inside
`np.cov`): no entry is excluded. -/
def np_mean (xs : List F) : F :=
  F.div (F.sum xs) (F.num (xs.length : ℚ))

/-- Embedding of `np.cov(rows, rowvar=False)` with the default `ddof=1`:
variables are the `ncols` columns, observations the rows; entry (i, j) is
the mean-centered cross product divided by `m - 1` (numpy clips the degrees
of freedom at 0, which ℕ subtraction reproduces; division by zero then
yields NaN exactly as numpy warns and does).  `ncols` is the column count
of the array (its shape), passed explicitly as numpy knows it. -/
def np_cov (rows : List (List F)) (ncols : ℕ) : List (List F) :=
  let m := rows.length
  (List.range ncols).map (fun i =>
    (List.range ncols).map (fun j =>
      let ci := columnF i rows
      let cj := columnF j rows
      let mi := np_mean ci
      let mj := np_mean cj
      let prods := List.zipWith (fun a b => F.mul (F.sub a mi) (F.sub b mj)) ci cj
      F.div (F.sum prods) (F.num ((m - 1 : ℕ) : ℚ))))

/-- Elementwise scaling of a float matrix by a rational constant. -/
def matScaleF (c : ℚ) (mat : List (List F)) : List (List F) :=
  mat.map (fun row => row.map (fun x => F.mul (F.num c) x))

/-- Per-asset mean log return of `compute_random_allocations`:
`mean_return = np.nanmean(log_return, axis=0)` over all rows (the all-NaN
first row produced by the shift is ignored entry-wise by nanmean). -/
def mean_return (log_return : List (List F)) (ncols : ℕ) : List F :=
  (List.range ncols).map (fun j => np_nanmean (columnF j log_return))

/-- Annualized covariance of `compute_random_allocations`:
`return_covariance = np.cov(log_return[1:], rowvar=False) * 252` followed by
`if not return_covariance.shape: return_covariance = np.array([[252.]])`.
With exactly one asset `np.cov` squeezes to a 0-d array (empty shape), so
the whole computed value is replaced by the constant matrix [[252.]]. -/
def return_covariance (log_return : List (List F)) (ncols : ℕ) : List (List F) :=
  let rc := matScaleF 252 (np_cov (log_return.drop 1) ncols)
  if ncols = 1 then [[F.num 252]] else rc

/-- True when every entry of a float matrix is finite. -/
def matAllFinite (mat : List (List F)) : Bool :=
  mat.all (fun row => row.all F.isFinite)

/-- Statistics produced by the estimator: per-asset mean log return and the
annualized covariance matrix. -/
structure Statistics where
  meanReturn : List F
  covariance : List (List F)
deriving DecidableEq, Repr

/-- Error kind named by the spec for too little price data.  The source
never raises it (no validation exists in the notebook). -/
inductive InsufficientDataError where
  | insufficientData
deriving DecidableEq, Repr

/-- Embedding of `stocks.shift(1)`: an all-NaN first row followed by the
original rows without the last. -/
def shift1 (ncols : ℕ) (prices : List (List F)) : List (List F) :=
  List.replicate ncols F.nan :: prices.dropLast

/-- Embedding of `log_return = np.log(selected_stocks / selected_stocks.shift(1))`:
elementwise ratio of each row to the shifted row, then the (abstracted)
natural logarithm `ln` applied elementwise. -/
def log_ret_df (ln : F → F) (ncols : ℕ) (prices : List (List F)) : List (List F) :=
  List.zipWith (fun r s => (List.zipWith F.div r s).map ln) prices (shift1 ncols prices)

/-- Embedding of the estimator pipeline (notebook data-pipeline cell feeding
`compute_random_allocations`): prices are turned into log returns and then
into Statistics.  The source performs no input validation, so the result is
`Except.ok` on every input; the `Except` type records the error contract the
spec claims. -/
def estimate (ln : F → F) (ncols : ℕ) (prices : List (List F)) :
    Except InsufficientDataError Statistics :=
  let lr := log_ret_df ln ncols prices
  Except.ok { meanReturn := mean_return lr ncols, covariance := return_covariance lr ncols }

example : np_nanmean [F.nan, F.num 1, F.num 2] = F.num (3/2) := by
  simp [np_nanmean, F.sum, F.isNan, List.filter, F.add, F.div]
  norm_num

example : return_covariance [[F.nan], [F.num 2], [F.num 0]] 1 = [[F.num 252]] := by
  simp [return_covariance]

example : matScaleF 252 (np_cov [[F.num 2], [F.num 0]] 1) = [[F.num 504]] := by
  simp [matScaleF, np_cov, columnF, np_mean, F.sum, F.add, F.sub, F.neg, F.mul, F.div,
    List.range_succ]
  norm_num

/-! ### Exact-rational model of the finite-valued computations

The following definitions re-embed the same source functions over `ℚ`,
for the claims that concern finite data only.  The ℚ model represents the
valid (finite) log-return rows; NaN handling is covered by the `F` model
above.  `ℚ` division by zero is Lean junk (0) where IEEE gives ±inf/NaN:
no theorem below relies on the value of such a division. -/

/-- Dot product of two rational vectors (`np.sum(a * b)`). -/
def dotQ (a b : List ℚ) : ℚ := (List.zipWith (fun x y => x * y) a b).sum

/-- Column `j` of a row-major rational matrix. -/
def columnQ (j : ℕ) (rows : List (List ℚ)) : List ℚ :=
  rows.map (fun r => r.getD j 0)

/-- Mean of a rational column: on finite data `np.nanmean`, `np.mean` and
the pandas column mean all reduce to the plain arithmetic mean. -/
def np_nanmean_q (xs : List ℚ) : ℚ := xs.sum / (xs.length : ℚ)

/-- Per-asset mean return `np.nanmean(log_return, axis=0)` over finite data. -/
def mean_return_q (lr : List (List ℚ)) (ncols : ℕ) : List ℚ :=
  (List.range ncols).map (fun j => np_nanmean_q (columnQ j lr))

/-- Sample covariance `np.cov(rows, rowvar=False)` (ddof = 1) over finite
data; also the pandas `.cov()` on all-finite columns. -/
def np_cov_q (rows : List (List ℚ)) (ncols : ℕ) : List (List ℚ) :=
  let m := rows.length
  (List.range ncols).map (fun i =>
    (List.range ncols).map (fun j =>
      let ci := columnQ i rows
      let cj := columnQ j rows
      let mi := np_nanmean_q ci
      let mj := np_nanmean_q cj
      let prods := List.zipWith (fun a b => (a - mi) * (b - mj)) ci cj
      prods.sum / (((m - 1 : ℕ) : ℚ))))

/-- Elementwise scaling of a rational matrix. -/
def matScaleQ (c : ℚ) (mat : List (List ℚ)) : List (List ℚ) :=
  mat.map (fun row => row.map (fun x => c * x))

/-- Matrix-vector product (`np.dot(mat, w)`). -/
def matVec (mat : List (List ℚ)) (w : List ℚ) : List ℚ :=
  mat.map (fun row => dotQ row w)

/-- Quadratic form w^T mat w (`np.dot(w.T, np.dot(mat, w))`). -/
def quadForm (mat : List (List ℚ)) (w : List ℚ) : ℚ := dotQ w (matVec mat w)

/-- Row normalization of the Monte Carlo sampler:
`normed_weights = (weights.T / np.sum(weights, axis=1)).T` — each raw draw
is divided by its own sum (same arithmetic as the per-row loop
`weights = weights / np.sum(weights)` of the earlier cell). -/
def normalize_row (w : List ℚ) : List ℚ := w.map (fun x => x / w.sum)

/-- Constraint function `check_sum(weights) = np.sum(weights) - 1`. -/
def check_sum (w : List ℚ) : ℚ := w.sum - 1

/-- Expected annualized return
`get_return(mean_ret, weights) = np.sum(mean_ret * weights) * 252`. -/
def get_return (mean_ret : List ℚ) (w : List ℚ) : ℚ := dotQ mean_ret w * 252

/-- Annualized volatility `get_volatility(log_ret, weights) =
np.sqrt(np.dot(weights.T, np.dot(np.cov(log_ret[1:], rowvar=False) * 252, weights)))`.
The real square root is abstracted as the parameter `sqrt`. -/
def get_volatility (sqrt : ℚ → ℚ) (log_ret : List (List ℚ)) (ncols : ℕ)
    (w : List ℚ) : ℚ :=
  sqrt (quadForm (matScaleQ 252 (np_cov_q (log_ret.drop 1) ncols)) w)

/-- Single-asset covariance fix-up of `compute_random_allocations` in the ℚ
model: `np.cov(log_return[1:], rowvar=False) * 252`, replaced by the
constant `[[252.]]` when the 0-d single-asset result has empty shape. -/
def return_covariance_q (lr : List (List ℚ)) (ncols : ℕ) : List (List ℚ) :=
  let rc := matScaleQ 252 (np_cov_q (lr.drop 1) ncols)
  if ncols = 1 then [[(252 : ℚ)]] else rc

/-- One row of the SampleSet: the normalized weights and the realized
Return / Volatility / Sharpe columns of the output DataFrame. -/
structure PortfolioPoint where
  weights : List ℚ
  ret : ℚ
  vol : ℚ
  sharpe : ℚ
deriving DecidableEq, Repr

/-- Error raised by numpy itself when an array is allocated with a negative
dimension (`np.random.random((num_ports, ncols))` with `num_ports < 0`).
The source function performs no count validation of its own. -/
inductive NumpyError where
  | negativeDimensions
deriving DecidableEq, Repr

/-- Embedding of `compute_random_allocations(log_return, num_ports)`.
Randomness is an explicit input: `draws i` is row `i` of
`np.random.random((num_ports, ncols))`.  A negative `num_ports` makes the
numpy allocation itself raise; any `num_ports ≥ 0` (including 0) produces
exactly `num_ports` rows, each holding a normalized draw with
`Return = np.sum(mean_return * w) * 252`,
`Volatility = sqrt(w^T return_covariance w)` and `Sharpe = Return/Volatility`. -/
def compute_random_allocations (sqrt : ℚ → ℚ) (draws : ℕ → List ℚ)
    (log_return : List (List ℚ)) (ncols : ℕ) (num_ports : ℤ) :
    Except NumpyError (List PortfolioPoint) :=
  if num_ports < 0 then Except.error NumpyError.negativeDimensions
  else
    let mr := mean_return_q log_return ncols
    let cov := return_covariance_q log_return ncols
    Except.ok ((List.range num_ports.toNat).map (fun i =>
      let w := normalize_row (draws i)
      let ret := dotQ mr w * 252
      let vol := sqrt (quadForm cov w)
      { weights := w, ret := ret, vol := vol, sharpe := ret / vol }))

/-- Error kind named by the spec for a zero-volatility denominator.  The
source never raises it: no such error exists in the notebook. -/
inductive DegenerateRiskError where
  | degenerateRisk
deriving DecidableEq, Repr

/-- Embedding of `get_ret_vol_sr(weights)`: realized return, volatility and
Sharpe ratio of a weight vector.  The pandas `log_ret.mean()` / `log_ret.cov()`
skip NaN entries, so the ℚ model takes the finite return rows directly.
`sr = ret/vol` is computed unconditionally (ℚ junk 0 at vol = 0, where
numpy silently yields inf or NaN — never an exception). -/
def get_ret_vol_sr (sqrt : ℚ → ℚ) (log_ret : List (List ℚ)) (ncols : ℕ)
    (w : List ℚ) : ℚ × ℚ × ℚ :=
  let ret := dotQ (mean_return_q log_ret ncols) w * 252
  let vol := sqrt (quadForm (matScaleQ 252 (np_cov_q log_ret ncols)) w)
  (ret, vol, ret / vol)

/-- Except-valued view of `get_ret_vol_sr`: the source has no error branch
or raise at all, so the embedding is `Except.ok` on every input; the error
type records the contract the spec claims for the Sharpe division. -/
def get_ret_vol_srE (sqrt : ℚ → ℚ) (log_ret : List (List ℚ)) (ncols : ℕ)
    (w : List ℚ) : Except DegenerateRiskError (ℚ × ℚ × ℚ) :=
  Except.ok (get_ret_vol_sr sqrt log_ret ncols w)

/-- One problem instance handed to `scipy.optimize.minimize(objective,
init_guess, bounds=bounds, constraints=cons)`: the objective, the initial
guess, per-weight bounds and the list of equality-constraint functions
(each must be 0 at a feasible point). -/
structure OptProblem where
  objective : List ℚ → ℚ
  init_guess : List ℚ
  bounds : List (ℚ × ℚ)
  constraints : List (List ℚ → ℚ)

/-- Result record of `scipy.optimize.minimize`: the solution `x`, the
objective value at `x` (`result.fun`, the best-effort value even without
convergence) and the convergence flag `result.success`. -/
structure MinimizeResult where
  x : List ℚ
  fun_val : ℚ
  success : Bool

/-- pandas `Series.min()` on a nonempty column (the empty default is junk). -/
def series_min : List ℚ → ℚ
  | [] => 0
  | x :: xs => xs.foldl min x

/-- pandas `Series.max()` on a nonempty column (the empty default is junk). -/
def series_max : List ℚ → ℚ
  | [] => 0
  | x :: xs => xs.foldl max x

/-- Embedding of `np.linspace(lo, hi, n)` (endpoint included):
point `i` is `lo + i * (hi - lo)/(n - 1)`. -/
def np_linspace (lo hi : ℚ) (n : ℕ) : List ℚ :=
  (List.range n).map (fun i : ℕ => lo + (i : ℚ) * ((hi - lo) / ((n : ℚ) - 1)))

/-- Embedding of `compute_frontier(df, n)`: sweep `n` equally spaced target
returns from `df.Return.min()` to `df.Return.max()`; for each target invoke
the solver on the min-volatility problem with the two equality constraints
`check_sum` and `get_return(w) - possible_return`, and append
`result.fun` — unconditionally, with no convergence check — paired with the
target return.  `df_return` is the Return column of the sample DataFrame,
`ncols` the number of asset columns (`len(df.columns) - 3`), and the
external SLSQP solver is the parameter `minimize`. -/
def compute_frontier (minimize : OptProblem → MinimizeResult) (sqrt : ℚ → ℚ)
    (mean_ret : List ℚ) (log_return : List (List ℚ)) (ncols : ℕ)
    (df_return : List ℚ) (n : ℕ) : List (ℚ × ℚ) :=
  let frontier_ret := np_linspace (series_min df_return) (series_max df_return) n
  let bounds := List.replicate ncols ((0 : ℚ), (1 : ℚ))
  let init_guess := List.replicate ncols ((1 : ℚ) / (ncols : ℚ))
  frontier_ret.map (fun possible_return =>
    let cons : List (List ℚ → ℚ) :=
      [check_sum, fun w => get_return mean_ret w - possible_return]
    let result := minimize
      { objective := fun w => get_volatility sqrt log_return ncols w,
        init_guess := init_guess, bounds := bounds, constraints := cons }
    (result.fun_val, possible_return))

/-- Python `x or 0` on an optional float: `None` and `0.0` are falsy and
give 0; any other value passes through (the `vol = vol or 0` /
`ret = ret or 0` coercion of `find_best_allocation`). -/
def pyOr (x : Option ℚ) : ℚ :=
  match x with
  | none => 0
  | some v => if v = 0 then 0 else v

/-- Embedding of `minimize_difference(weights, des_vol, des_ret, log_ret,
mean_ret) = abs(des_ret - ret) + abs(des_vol - vol)` with the realized
`ret`/`vol` of the weights. -/
def minimize_difference (sqrt : ℚ → ℚ) (w : List ℚ) (des_vol des_ret : ℚ)
    (log_ret : List (List ℚ)) (ncols : ℕ) (mean_ret : List ℚ) : ℚ :=
  |des_ret - get_return mean_ret w| + |des_vol - get_volatility sqrt log_ret ncols w|

/-- The optimization problem `find_best_allocation` hands to
`scipy.optimize.minimize`: after the `or 0` coercions, the objective is
`minimize_difference` at the coerced targets and the constraint tuple is
ALWAYS the three equality constraints `check_sum`,
`get_return(mean_return, w) - ret` and `get_volatility(log_return, w) - vol`
— there is no conditional relaxation in the source. -/
def find_best_allocation_problem (sqrt : ℚ → ℚ) (log_return : List (List ℚ))
    (ncols : ℕ) (vol ret : Option ℚ) : OptProblem :=
  let vol0 := pyOr vol
  let ret0 := pyOr ret
  let mr := mean_return_q log_return ncols
  { objective := fun w => minimize_difference sqrt w vol0 ret0 log_return ncols mr,
    init_guess := List.replicate ncols ((1 : ℚ) / (ncols : ℚ)),
    bounds := List.replicate ncols ((0 : ℚ), (1 : ℚ)),
    constraints :=
      [check_sum,
       fun w => get_return mr w - ret0,
       fun w => get_volatility sqrt log_return ncols w - vol0] }

/-- Output record of `find_best_allocation`: the pandas Series holding the
solution weights together with its Return and Volatility entries. -/
structure FBAResult where
  weights : List ℚ
  Return : ℚ
  Volatility : ℚ
deriving DecidableEq, Repr

/-- Embedding of `find_best_allocation(log_return, vol, ret)`: coerce the
desired values by `or 0`, solve the constrained problem, then report the
REALIZED `ret = get_return(mean_return, opt.x)` and
`vol = get_volatility(log_return, opt.x)` of the solution weights (the
local `ret`/`vol` names are rebound to these realized values before the
Series is built). -/
def find_best_allocation (sqrt : ℚ → ℚ) (minimize : OptProblem → MinimizeResult)
    (log_return : List (List ℚ)) (ncols : ℕ) (vol ret : Option ℚ) : FBAResult :=
  let mr := mean_return_q log_return ncols
  let opt := minimize (find_best_allocation_problem sqrt log_return ncols vol ret)
  { weights := opt.x,
    Return := get_return mr opt.x,
    Volatility := get_volatility sqrt log_return ncols opt.x }

/-- Modelled from the spec (for comparison with the source): the constraint
set that claim C5 asserts the Closest-Allocation mode uses — the pins on
return and volatility are added only when both desired values are supplied
and nonzero, and otherwise the solve relaxes to the sum constraint alone. -/
def claimed_closest_constraints (sqrt : ℚ → ℚ) (log_return : List (List ℚ))
    (ncols : ℕ) (vol ret : Option ℚ) : List (List ℚ → ℚ) :=
  match vol, ret with
  | some v, some r =>
      if v ≠ 0 ∧ r ≠ 0 then
        [check_sum,
         fun w => get_return (mean_return_q log_return ncols) w - r,
         fun w => get_volatility sqrt log_return ncols w - v]
      else [check_sum]
  | _, _ => [check_sum]

/-! ### Closure lemmas for the float model -/

lemma F.neg_finite {a : F} (ha : a.isFinite = true) : (F.neg a).isFinite = true := by
  cases a <;> simp_all [F.isFinite, F.neg]

lemma F.add_finite {a b : F} (ha : a.isFinite = true) (hb : b.isFinite = true) :
    (F.add a b).isFinite = true := by
  cases a <;> cases b <;> simp_all [F.isFinite, F.add]

lemma F.sub_finite {a b : F} (ha : a.isFinite = true) (hb : b.isFinite = true) :
    (F.sub a b).isFinite = true :=
  F.add_finite ha (F.neg_finite hb)

lemma F.mul_finite {a b : F} (ha : a.isFinite = true) (hb : b.isFinite = true) :
    (F.mul a b).isFinite = true := by
  cases a <;> cases b <;> simp_all [F.isFinite, F.mul]

lemma F.div_finite {a : F} {q : ℚ} (ha : a.isFinite = true) (hq : q ≠ 0) :
    (F.div a (F.num q)).isFinite = true := by
  cases a <;> simp_all [F.isFinite, F.div]

lemma F.not_isNan_of_isFinite {a : F} (h : a.isFinite = true) : a.isNan = false := by
  cases a <;> simp_all [F.isFinite, F.isNan]

lemma foldl_add_finite (l : List F) (acc : F) (ha : acc.isFinite = true)
    (h : ∀ x ∈ l, x.isFinite = true) : (l.foldl F.add acc).isFinite = true := by
  induction l generalizing acc with
  | nil => exact ha
  | cons x xs ih =>
    exact ih (F.add acc x) (F.add_finite ha (h x (by simp)))
      (fun y hy => h y (by simp [hy]))

lemma F.sum_finite {l : List F} (h : ∀ x ∈ l, x.isFinite = true) :
    (F.sum l).isFinite = true :=
  foldl_add_finite l (F.num 0) rfl h

lemma np_mean_finite {l : List F} (h : ∀ x ∈ l, x.isFinite = true) (hne : l ≠ []) :
    (np_mean l).isFinite = true := by
  have hlen : (l.length : ℚ) ≠ 0 := by
    have hz : l.length ≠ 0 := fun hz => hne (List.length_eq_zero.mp hz)
    exact_mod_cast hz
  exact F.div_finite (F.sum_finite h) hlen

lemma np_nanmean_finite {l : List F} (h : ∀ x ∈ l, x.isFinite = true) (hne : l ≠ []) :
    (np_nanmean l).isFinite = true := by
  have hfix : l.filter (fun x => ! x.isNan) = l :=
    List.filter_eq_self.mpr (fun x hx => by simp [F.not_isNan_of_isFinite (h x hx)])
  rw [np_nanmean]
  simp only [hfix]
  have hlen : (l.length : ℚ) ≠ 0 := by
    have hz : l.length ≠ 0 := fun hz => hne (List.length_eq_zero.mp hz)
    exact_mod_cast hz
  exact F.div_finite (F.sum_finite h) hlen

lemma getD_mem_of_lt {α : Type} (l : List α) (j : ℕ) (d : α) (h : j < l.length) :
    l.getD j d ∈ l := by
  induction l generalizing j with
  | nil => simp at h
  | cons x xs ih =>
    cases j with
    | zero => simp
    | succ n =>
      exact List.mem_cons_of_mem x (ih n (by simpa using h))

lemma getD_of_all_eq {α : Type} {l : List α} {d : α} (h : ∀ x ∈ l, x = d) (j : ℕ) :
    l.getD j d = d := by
  induction l generalizing j with
  | nil => simp
  | cons x xs ih =>
    cases j with
    | zero => simpa using h x (by simp)
    | succ n => exact ih (fun y hy => h y (by simp [hy])) n

lemma columnF_length (j : ℕ) (rows : List (List F)) :
    (columnF j rows).length = rows.length := by
  simp [columnF]

lemma columnF_finite {rows : List (List F)} {ncols j : ℕ} (hj : j < ncols)
    (hrect : ∀ row ∈ rows, row.length = ncols)
    (hfin : ∀ row ∈ rows, ∀ x ∈ row, x.isFinite = true) :
    ∀ x ∈ columnF j rows, x.isFinite = true := by
  intro x hx
  simp only [columnF, List.mem_map] at hx
  obtain ⟨r, hr, rfl⟩ := hx
  exact hfin r hr _ (getD_mem_of_lt r j F.nan (by rw [hrect r hr]; exact hj))

lemma zipWith_forall_mem {α β γ : Type} {f : α → β → γ} {P : α → Prop} {Q : β → Prop}
    {R : γ → Prop} (hf : ∀ a b, P a → Q b → R (f a b)) (l1 : List α) (l2 : List β)
    (h1 : ∀ x ∈ l1, P x) (h2 : ∀ y ∈ l2, Q y) :
    ∀ z ∈ List.zipWith f l1 l2, R z := by
  induction l1 generalizing l2 with
  | nil => simp
  | cons a as ih =>
    cases l2 with
    | nil => simp
    | cons b bs =>
      intro z hz
      rw [List.zipWith_cons_cons, List.mem_cons] at hz
      rcases hz with rfl | hz
      · exact hf a b (h1 a (by simp)) (h2 b (by simp))
      · exact ih bs (fun x hx => h1 x (by simp [hx])) (fun y hy => h2 y (by simp [hy])) z hz

lemma np_cov_finite {rows : List (List F)} {ncols : ℕ}
    (hrect : ∀ row ∈ rows, row.length = ncols)
    (hfin : ∀ row ∈ rows, ∀ x ∈ row, x.isFinite = true)
    (hm : 2 ≤ rows.length) :
    matAllFinite (np_cov rows ncols) = true := by
  have hne : rows ≠ [] := by
    intro h; rw [h] at hm; simp at hm
  have hcolne : ∀ j : ℕ, columnF j rows ≠ [] := by
    intro j h
    have := columnF_length j rows
    rw [h] at this
    simp at this
    exact hne (List.length_eq_zero.mp this.symm)
  rw [matAllFinite, List.all_eq_true]
  intro row hrow
  simp only [np_cov, List.mem_map] at hrow
  obtain ⟨i, hi, rfl⟩ := hrow
  rw [List.all_eq_true]
  intro x hx
  simp only [List.mem_map] at hx
  obtain ⟨j, hj, rfl⟩ := hx
  rw [List.mem_range] at hi hj
  refine F.div_finite (F.sum_finite ?_) ?_
  · refine zipWith_forall_mem
      (P := fun a => a.isFinite = true) (Q := fun b => b.isFinite = true) ?_
      (columnF i rows) (columnF j rows)
      (columnF_finite hi hrect hfin) (columnF_finite hj hrect hfin)
    intro a b ha hb
    exact F.mul_finite
      (F.sub_finite ha (np_mean_finite (columnF_finite hi hrect hfin) (hcolne i)))
      (F.sub_finite hb (np_mean_finite (columnF_finite hj hrect hfin) (hcolne j)))
  · have : rows.length - 1 ≠ 0 := by omega
    exact_mod_cast this

lemma matScaleF_finite {c : ℚ} {mat : List (List F)} (h : matAllFinite mat = true) :
    matAllFinite (matScaleF c mat) = true := by
  rw [matAllFinite, List.all_eq_true] at h ⊢
  intro row hrow
  simp only [matScaleF, List.mem_map] at hrow
  obtain ⟨r, hr, rfl⟩ := hrow
  rw [List.all_eq_true]
  intro x hx
  simp only [List.mem_map] at hx
  obtain ⟨y, hy, rfl⟩ := hx
  have := h r hr
  rw [List.all_eq_true] at this
  exact F.mul_finite rfl (this y hy)

lemma np_nanmean_cons_nan (l : List F) : np_nanmean (F.nan :: l) = np_nanmean l := by
  simp [np_nanmean, F.isNan]

lemma mean_return_cons_nan_row {r0 : List F} (h : ∀ x ∈ r0, x = F.nan)
    (rest : List (List F)) (ncols : ℕ) :
    mean_return (r0 :: rest) ncols = mean_return rest ncols := by
  unfold mean_return
  refine List.map_congr_left (fun j _ => ?_)
  rw [show columnF j (r0 :: rest) = r0.getD j F.nan :: columnF j rest from rfl,
    getD_of_all_eq h j, np_nanmean_cons_nan]

lemma mean_return_finite {rest : List (List F)} {ncols : ℕ}
    (hrect : ∀ row ∈ rest, row.length = ncols)
    (hfin : ∀ row ∈ rest, ∀ x ∈ row, x.isFinite = true)
    (hne : rest ≠ []) :
    (mean_return rest ncols).all F.isFinite = true := by
  rw [mean_return, List.all_eq_true]
  intro x hx
  simp only [List.mem_map, List.mem_range] at hx
  obtain ⟨j, hj, rfl⟩ := hx
  refine np_nanmean_finite (columnF_finite hj hrect hfin) ?_
  intro h
  have := columnF_length j rest
  rw [h] at this
  simp at this
  exact hne (List.length_eq_zero.mp this.symm)

/-! ### Lemmas for the rational model -/

lemma sum_map_div (l : List ℚ) (s : ℚ) : (l.map (fun x => x / s)).sum = l.sum / s := by
  induction l with
  | nil => simp
  | cons x xs ih => simp [ih, add_div]

lemma foldl_min_le (l : List ℚ) (a : ℚ) : l.foldl min a ≤ a := by
  induction l generalizing a with
  | nil => simp
  | cons x xs ih => exact le_trans (ih (min a x)) (min_le_left a x)

lemma le_foldl_max (l : List ℚ) (a : ℚ) : a ≤ l.foldl max a := by
  induction l generalizing a with
  | nil => simp
  | cons x xs ih => exact le_trans (le_max_left a x) (ih (max a x))

lemma series_min_le_series_max {l : List ℚ} (h : l ≠ []) :
    series_min l ≤ series_max l := by
  cases l with
  | nil => exact absurd rfl h
  | cons x xs =>
    exact le_trans (foldl_min_le xs x) (le_foldl_max xs x)

lemma np_linspace_sorted {lo hi : ℚ} (h : lo ≤ hi) (n : ℕ) :
    List.Sorted (fun a b => a ≤ b) (np_linspace lo hi n) := by
  cases n with
  | zero => simp [np_linspace]
  | succ m =>
    have hd : 0 ≤ (hi - lo) / (((m + 1 : ℕ) : ℚ) - 1) := by
      refine div_nonneg (sub_nonneg.mpr h) ?_
      push_cast
      simp
    unfold np_linspace List.Sorted
    refine List.pairwise_map.mpr ((List.pairwise_lt_range (m + 1)).imp ?_)
    intro i j hij
    have hij2 : (i : ℚ) ≤ (j : ℚ) := by exact_mod_cast hij.le
    exact add_le_add_left (mul_le_mul_of_nonneg_right hij2 hd) lo

lemma columnQ_replicate (m : ℕ) (c : ℚ) :
    columnQ 0 (List.replicate m [c]) = List.replicate m c := by
  simp [columnQ, List.map_replicate]

lemma np_nanmean_q_replicate {m : ℕ} (hm : 1 ≤ m) (c : ℚ) :
    np_nanmean_q (List.replicate m c) = c := by
  have hm0 : ((m : ℚ)) ≠ 0 := by
    have : m ≠ 0 := by omega
    exact_mod_cast this
  rw [np_nanmean_q, List.sum_replicate, List.length_replicate, nsmul_eq_mul,
    mul_comm, mul_div_assoc, div_self hm0, mul_one]

lemma zipWith_dev_replicate (m : ℕ) (c : ℚ) :
    List.zipWith (fun a b => (a - c) * (b - c)) (List.replicate m c) (List.replicate m c) =
      List.replicate m 0 := by
  induction m with
  | zero => rfl
  | succ k ih => simp [List.replicate_succ, ih]

lemma np_cov_q_replicate {m : ℕ} (hm : 1 ≤ m) (c : ℚ) :
    np_cov_q (List.replicate m [c]) 1 = [[0]] := by
  rw [np_cov_q]
  simp only [List.range_succ, List.range_zero, List.nil_append, List.map_cons,
    List.map_nil, columnQ_replicate, np_nanmean_q_replicate hm,
    zipWith_dev_replicate, List.sum_replicate]
  simp

lemma rat_sqrt_zero : Rat.sqrt 0 = 0 := by
  simp [Rat.sqrt]

/-! ### Claim C1 -/

/-- C1 (counterexample): a two-asset log-return matrix in which every asset
has at least one valid (finite, non-NaN) return period, but asset 0 has a
NaN return in a row after the first.  `np.nanmean` skips it, but `np.cov`
does not: the annualized covariance contains non-finite entries, so the
resulting Statistics are NOT finite, contradicting the claim. -/
theorem C1_counterexample :
    ((List.range 2).all (fun j =>
        (columnF j [[F.nan, F.nan], [F.num 1, F.num 2], [F.nan, F.num 4]]).any
          (fun x => x.isFinite)) = true) ∧
    matAllFinite (return_covariance
        [[F.nan, F.nan], [F.num 1, F.num 2], [F.nan, F.num 4]] 2) = false := by
  constructor
  · decide
  · simp only [return_covariance, matAllFinite]
    norm_num [matScaleF, np_cov, columnF, np_mean, F.sum, F.add, F.sub, F.neg,
      F.mul, F.div, F.isFinite, List.range_succ]

/-- C1 (amended): in `compute_random_allocations`, the per-asset mean
excludes NaN entries (the all-NaN first row contributes nothing), while the
covariance excludes only the first row; when every entry after the first
row is finite and there are at least 2 such rows, both the mean vector and
the annualized covariance are finite. -/
theorem C1_nonfinite_handling (r0 : List F) (rest : List (List F)) (ncols : ℕ)
    (h0 : ∀ x ∈ r0, x = F.nan)
    (hrect : ∀ row ∈ rest, row.length = ncols)
    (hfin : ∀ row ∈ rest, ∀ x ∈ row, x.isFinite = true)
    (hm : 2 ≤ rest.length) :
    mean_return (r0 :: rest) ncols = mean_return rest ncols ∧
    (mean_return (r0 :: rest) ncols).all F.isFinite = true ∧
    matAllFinite (return_covariance (r0 :: rest) ncols) = true := by
  have hne : rest ≠ [] := by
    intro h; rw [h] at hm; simp at hm
  have hmean := mean_return_cons_nan_row h0 rest ncols
  refine ⟨hmean, by rw [hmean]; exact mean_return_finite hrect hfin hne, ?_⟩
  rw [return_covariance]
  by_cases hc : ncols = 1
  · simp [hc, matAllFinite, F.isFinite]
  · simp only [if_neg hc]
    have hdrop : (r0 :: rest).drop 1 = rest := rfl
    rw [hdrop]
    exact matScaleF_finite (np_cov_finite hrect hfin hm)

/-- C1 (witness): the amended theorem applied to a concrete matrix with an
all-NaN first row and two finite return rows over two assets. -/
theorem C1_witness :
    mean_return ([F.nan, F.nan] :: [[F.num 1, F.num 2], [F.num 3, F.num 5]]) 2 =
      mean_return [[F.num 1, F.num 2], [F.num 3, F.num 5]] 2 ∧
    (mean_return ([F.nan, F.nan] :: [[F.num 1, F.num 2], [F.num 3, F.num 5]]) 2).all
      F.isFinite = true ∧
    matAllFinite (return_covariance
      ([F.nan, F.nan] :: [[F.num 1, F.num 2], [F.num 3, F.num 5]]) 2) = true :=
  C1_nonfinite_handling [F.nan, F.nan] [[F.num 1, F.num 2], [F.num 3, F.num 5]] 2
    (by decide) (by decide) (by decide) (by decide)

/-! ### Claim C2 -/

/-- C2 (code is wrong): for a single asset with log returns [2, 0] (sample
variance 2), the source replaces the computed annualized covariance with
the constant `[[252.]]`, whereas 252 times the sample variance — the very
value `np.cov(log_return[1:], rowvar=False) * 252` computed on the line
above the replacement — is 504. -/
theorem C2_single_asset_covariance_constant :
    return_covariance [[F.nan], [F.num 2], [F.num 0]] 1 = [[F.num 252]] ∧
    matScaleF 252 (np_cov ([[F.nan], [F.num 2], [F.num 0]].drop 1) 1) = [[F.num 504]] ∧
    F.num 252 ≠ F.num 504 := by
  refine ⟨by simp [return_covariance], ?_, by simp⟩
  norm_num [matScaleF, np_cov, columnF, np_mean, F.sum, F.add, F.sub, F.neg,
    F.mul, F.div, List.range_succ]

/-! ### Claim C9 -/

/-- Logarithm stub for the C9 counterexample: it fixes only that the log of
NaN is NaN, which is the single value that evaluation reaches there; the
error behavior of the pipeline is independent of the logarithm. -/
def np_log_stub : F → F := fun x => if x.isNan then F.nan else x

/-- C9 (counterexample): a PriceSeries with a single row and a single asset
column.  The claim requires the estimator to fail with
InsufficientDataError, but the source performs no validation: the pipeline
succeeds, producing a NaN mean and the constant single-asset covariance. -/
theorem C9_counterexample :
    estimate np_log_stub 1 [[F.num 100]] =
      Except.ok { meanReturn := [F.nan], covariance := [[F.num 252]] } := by
  simp [estimate, log_ret_df, shift1, mean_return, return_covariance, np_nanmean,
    columnF, F.sum, F.div, F.isNan, np_log_stub, List.filter]

/-- C9 (amended): the estimator pipeline performs no input validation and
never fails: it returns Statistics (possibly NaN-filled) for every input,
including price histories with fewer than 2 rows or zero asset columns, and
in particular it succeeds on every input with at least 2 rows and 1 column. -/
theorem C9_no_validation (ln : F → F) (ncols : ℕ) (prices : List (List F)) :
    ∃ s, estimate ln ncols prices = Except.ok s :=
  ⟨_, rfl⟩

/-! ### Claim C3 -/

/-- C3: every weight vector produced by the Monte Carlo sampler — a raw
draw with entries in [0,1] and positive total, divided by its own sum — has
every weight in [0,1] and total weight exactly 1 (hence within 1e-9). -/
theorem C3_normalized_weights (w : List ℚ) (hw : ∀ x ∈ w, 0 ≤ x ∧ x ≤ 1)
    (hs : 0 < w.sum) :
    (∀ y ∈ normalize_row w, 0 ≤ y ∧ y ≤ 1) ∧
    |(normalize_row w).sum - 1| ≤ 1 / 1000000000 := by
  constructor
  · intro y hy
    simp only [normalize_row, List.mem_map] at hy
    obtain ⟨x, hx, rfl⟩ := hy
    refine ⟨div_nonneg (hw x hx).1 hs.le, ?_⟩
    rw [div_le_one hs]
    exact List.single_le_sum (fun a ha => (hw a ha).1) x hx
  · rw [normalize_row, sum_map_div, div_self (ne_of_gt hs)]
    norm_num

/-- C3 (witness): the theorem applied to the concrete raw draw [1/2, 1/4]. -/
theorem C3_witness :
    (∀ y ∈ normalize_row [(1 : ℚ)/2, 1/4], 0 ≤ y ∧ y ≤ 1) ∧
    |(normalize_row [(1 : ℚ)/2, 1/4]).sum - 1| ≤ 1 / 1000000000 :=
  C3_normalized_weights [(1 : ℚ)/2, 1/4]
    (by intro x hx; simp only [List.mem_cons, List.not_mem_nil, or_false] at hx
        rcases hx with rfl | rfl <;> norm_num)
    (by simp; norm_num)

/-! ### Claim C4 -/

/-- C4: for every solver, statistics and nonempty sampled Return column,
`compute_frontier` with `n ≥ 2` grid points returns exactly `n`
(volatility, target return) pairs, ordered by ascending target return, and
its output is unchanged if every solve is flagged as non-converged — a
non-converged grid point is appended with its best-effort `result.fun`
volatility, never dropped. -/
theorem C4_frontier_complete (minimize : OptProblem → MinimizeResult) (sqrt : ℚ → ℚ)
    (mean_ret : List ℚ) (log_return : List (List ℚ)) (ncols : ℕ)
    (df_return : List ℚ) (n : ℕ) (hne : df_return ≠ []) (hn : 2 ≤ n) :
    (compute_frontier minimize sqrt mean_ret log_return ncols df_return n).length = n ∧
    List.Sorted (fun a b => a ≤ b)
      ((compute_frontier minimize sqrt mean_ret log_return ncols df_return n).map
        Prod.snd) ∧
    compute_frontier (fun p => { minimize p with success := false }) sqrt mean_ret
        log_return ncols df_return n =
      compute_frontier minimize sqrt mean_ret log_return ncols df_return n := by
  refine ⟨?_, ?_, rfl⟩
  · simp [compute_frontier, np_linspace]
  · have hmap : (compute_frontier minimize sqrt mean_ret log_return ncols df_return
        n).map Prod.snd =
        np_linspace (series_min df_return) (series_max df_return) n := by
      simp [compute_frontier, List.map_map, Function.comp_def]
    rw [hmap]
    exact np_linspace_sorted (series_min_le_series_max hne) n

/-- Concrete solver instantiation used by the C4 witness: it returns the
initial guess with the objective evaluated there and reports convergence. -/
def mzC4 : OptProblem → MinimizeResult :=
  fun p => { x := p.init_guess, fun_val := p.objective p.init_guess, success := true }

/-- C4 (witness): the theorem applied to a concrete solver, statistics,
Return column [1/2, 1/4] and point count 3. -/
theorem C4_witness :
    (compute_frontier mzC4 Rat.sqrt [(1 : ℚ)/10] [[(1 : ℚ)/10], [(2 : ℚ)/10]] 1
      [(1 : ℚ)/2, 1/4] 3).length = 3 ∧
    List.Sorted (fun a b => a ≤ b)
      ((compute_frontier mzC4 Rat.sqrt [(1 : ℚ)/10] [[(1 : ℚ)/10], [(2 : ℚ)/10]] 1
        [(1 : ℚ)/2, 1/4] 3).map Prod.snd) ∧
    compute_frontier (fun p => { mzC4 p with success := false }) Rat.sqrt [(1 : ℚ)/10]
        [[(1 : ℚ)/10], [(2 : ℚ)/10]] 1 [(1 : ℚ)/2, 1/4] 3 =
      compute_frontier mzC4 Rat.sqrt [(1 : ℚ)/10] [[(1 : ℚ)/10], [(2 : ℚ)/10]] 1
        [(1 : ℚ)/2, 1/4] 3 :=
  C4_frontier_complete mzC4 Rat.sqrt [(1 : ℚ)/10] [[(1 : ℚ)/10], [(2 : ℚ)/10]] 1
    [(1 : ℚ)/2, 1/4] 3 (by simp) (by norm_num)

/-! ### Claim C5 -/

/-- C5 (counterexample): with desiredVolatility absent and desiredReturn
1/10, the source still hands the solver all three equality constraints
(sum, return pin, volatility pin — the absent value coerced to 0), while
the constraint set the claim describes for this case is the sum constraint
alone: the two sets differ. -/
theorem C5_counterexample :
    ((find_best_allocation_problem Rat.sqrt [[(1 : ℚ)], [2]] 1 none
        (some (1/10))).constraints).length = 3 ∧
    (claimed_closest_constraints Rat.sqrt [[(1 : ℚ)], [2]] 1 none
        (some (1/10))).length = 1 ∧
    (3 : ℕ) ≠ 1 :=
  ⟨rfl, rfl, by norm_num⟩

/-- C5 (amended): `find_best_allocation` ALWAYS invokes the solver with the
three equality constraints — sum of weights 1, return pinned to the coerced
desired return, volatility pinned to the coerced desired volatility — where
an absent or zero desired value is coerced to 0 by `or 0`; the relaxed
sum-only form is never used, and the objective is always the
minimize-difference form at the coerced targets. -/
theorem C5_constraints_always_pinned (sqrt : ℚ → ℚ) (log_return : List (List ℚ))
    (ncols : ℕ) (vol ret : Option ℚ) (w : List ℚ) :
    ((find_best_allocation_problem sqrt log_return ncols vol ret).constraints).length
      = 3 ∧
    ((find_best_allocation_problem sqrt log_return ncols vol ret).constraints.getD 0
      (fun _ => 0)) w = check_sum w ∧
    ((find_best_allocation_problem sqrt log_return ncols vol ret).constraints.getD 1
      (fun _ => 0)) w =
        get_return (mean_return_q log_return ncols) w - pyOr ret ∧
    ((find_best_allocation_problem sqrt log_return ncols vol ret).constraints.getD 2
      (fun _ => 0)) w =
        get_volatility sqrt log_return ncols w - pyOr vol ∧
    (find_best_allocation_problem sqrt log_return ncols vol ret).objective w =
      minimize_difference sqrt w (pyOr vol) (pyOr ret) log_return ncols
        (mean_return_q log_return ncols) :=
  ⟨rfl, rfl, rfl, rfl, rfl⟩

/-! ### Claim C6 -/

/-- C6: `find_best_allocation` with both desired values absent returns
exactly the same result as with both desired values 0 — the `or 0`
coercion maps None and 0 to the same target, and everything downstream
(objective, constraints, solver call, reported metrics) coincides. -/
theorem C6_absent_eq_zero (sqrt : ℚ → ℚ) (minimize : OptProblem → MinimizeResult)
    (log_return : List (List ℚ)) (ncols : ℕ) :
    find_best_allocation sqrt minimize log_return ncols none none =
      find_best_allocation sqrt minimize log_return ncols (some 0) (some 0) := by
  simp [find_best_allocation, find_best_allocation_problem, pyOr]

/-! ### Claim C7 -/

/-- C7 (counterexample): a single-asset Statistics with zero variance
(constant log returns): the volatility component evaluates to 0, but the
Sharpe computation does NOT fail — `get_ret_vol_sr` has no error branch and
returns a value (numpy computes ret/0 silently), so no DegenerateRiskError
is raised. -/
theorem C7_counterexample :
    (get_ret_vol_sr Rat.sqrt [[(0 : ℚ)], [0]] 1 [1]).2.1 = 0 ∧
    get_ret_vol_srE Rat.sqrt [[(0 : ℚ)], [0]] 1 [1] =
      Except.ok (get_ret_vol_sr Rat.sqrt [[(0 : ℚ)], [0]] 1 [1]) := by
  refine ⟨?_, rfl⟩
  show Rat.sqrt (quadForm (matScaleQ 252 (np_cov_q [[(0 : ℚ)], [0]] 1)) [1]) = 0
  norm_num [np_cov_q, columnQ, np_nanmean_q, matScaleQ, quadForm, matVec, dotQ,
    List.range_succ, rat_sqrt_zero]

/-- C7 (amended): for any single-asset log-return history with constant
returns (zero variance) and any weight, the volatility computed by
`get_ret_vol_sr` is 0 — without error — and the Sharpe computation also
completes without failing: the function returns a value and no
DegenerateRiskError exists in the code. -/
theorem C7_zero_variance_no_error (sq : ℚ → ℚ) (hsq : sq 0 = 0) (c a : ℚ) (m : ℕ)
    (hm : 1 ≤ m) :
    (get_ret_vol_sr sq (List.replicate m [c]) 1 [a]).2.1 = 0 ∧
    get_ret_vol_srE sq (List.replicate m [c]) 1 [a] =
      Except.ok (get_ret_vol_sr sq (List.replicate m [c]) 1 [a]) := by
  refine ⟨?_, rfl⟩
  show sq (quadForm (matScaleQ 252 (np_cov_q (List.replicate m [c]) 1)) [a]) = 0
  rw [np_cov_q_replicate hm]
  have hq : quadForm (matScaleQ 252 [[(0 : ℚ)]]) [a] = 0 := by
    norm_num [matScaleQ, quadForm, matVec, dotQ]
  rw [hq, hsq]

/-- C7 (witness): the amended theorem applied with the rational square root
at three constant returns of 1/3 and weight 2. -/
theorem C7_witness :
    Rat.sqrt 0 = 0 ∧ 1 ≤ 3 ∧
    ((get_ret_vol_sr Rat.sqrt (List.replicate 3 [(1 : ℚ)/3]) 1 [2]).2.1 = 0 ∧
     get_ret_vol_srE Rat.sqrt (List.replicate 3 [(1 : ℚ)/3]) 1 [2] =
       Except.ok (get_ret_vol_sr Rat.sqrt (List.replicate 3 [(1 : ℚ)/3]) 1 [2])) :=
  ⟨rat_sqrt_zero, by norm_num,
    C7_zero_variance_no_error Rat.sqrt rat_sqrt_zero ((1 : ℚ)/3) 2 3 (by norm_num)⟩

/-! ### Claim C8 -/

/-- Concrete raw-draw source used by the C8 theorems. -/
def drawsC8 : ℕ → List ℚ := fun _ => [1]

/-- C8 (counterexample): `compute_random_allocations` with count 0 — which
the claim says must fail with InvalidArgumentError — succeeds, returning an
empty SampleSet. -/
theorem C8_counterexample :
    compute_random_allocations Rat.sqrt drawsC8 [[(1 : ℚ)], [2]] 1 0 =
      Except.ok [] := by
  simp [compute_random_allocations]

/-- C8 (amended): the sampler fails — with the numpy negative-dimensions
ValueError, not an InvalidArgumentError of its own — exactly when the count
is negative; for every count ≥ 0 (including 0) it returns exactly `count`
PortfolioPoint entries. -/
theorem C8_count_behavior (sqrt : ℚ → ℚ) (draws : ℕ → List ℚ)
    (log_return : List (List ℚ)) (ncols : ℕ) (n : ℤ) :
    (n < 0 → compute_random_allocations sqrt draws log_return ncols n =
        Except.error NumpyError.negativeDimensions) ∧
    (0 ≤ n → ∃ pts, compute_random_allocations sqrt draws log_return ncols n =
        Except.ok pts ∧ pts.length = n.toNat) := by
  constructor
  · intro h
    simp [compute_random_allocations, h]
  · intro h
    rw [compute_random_allocations, if_neg (not_lt.mpr h)]
    exact ⟨_, rfl, by simp⟩

/-- C8 (witness): the amended theorem applied at count 2: the sampler
succeeds with exactly 2 entries. -/
theorem C8_witness :
    (0 : ℤ) ≤ 2 ∧
    ∃ pts, compute_random_allocations Rat.sqrt drawsC8 [[(1 : ℚ)], [2]] 1 2 =
      Except.ok pts ∧ pts.length = (2 : ℤ).toNat :=
  ⟨by norm_num,
    (C8_count_behavior Rat.sqrt drawsC8 [[(1 : ℚ)], [2]] 1 2).2 (by norm_num)⟩

/-! ### Claim C10 -/

/-- C10: the PortfolioPoint returned by `find_best_allocation` reports the
realized metrics of its own solution weights: its Return field is
`get_return` applied to the returned weights and its Volatility field is
`get_volatility` applied to the returned weights — not the requested
desired values. -/
theorem C10_realized_metrics (sqrt : ℚ → ℚ) (minimize : OptProblem → MinimizeResult)
    (log_return : List (List ℚ)) (ncols : ℕ) (vol ret : Option ℚ) :
    (find_best_allocation sqrt minimize log_return ncols vol ret).Return =
      get_return (mean_return_q log_return ncols)
        (find_best_allocation sqrt minimize log_return ncols vol ret).weights ∧
    (find_best_allocation sqrt minimize log_return ncols vol ret).Volatility =
      get_volatility sqrt log_return ncols
        (find_best_allocation sqrt minimize log_return ncols vol ret).weights :=
  ⟨rfl, rfl⟩

end PortfolioOpt
